import Mathlib

/-!
# Verification of the SEC Form-4 filing pipeline

A shallow embedding of the core pipeline of the repository
(`sec.service.ts`): ticker-registry cache, CIK padding and lookup,
filing-list filtering, Form-4 XML document selection, transaction
normalization and buy/sell classification.

JavaScript string and number primitives used by the source are modelled
by explicit executable Lean functions on `List Char` / `ℚ`; JS `undefined`
and `null` propagation through `?.` chains and `??` is modelled with
`Option`.  Machine floats are modelled by exact rationals: a coercion
result that JS would report as `NaN` or `±Infinity` is modelled as `none`.
-/

namespace Sec4

/-! ## JS string primitives -/

/-- Models JS `String.prototype.toLowerCase` (ASCII range, which is all the
source compares). -/
def jsToLower (s : String) : String := ⟨s.data.map Char.toLower⟩

/-- Models JS `String.prototype.toUpperCase` (ASCII range). -/
def jsToUpper (s : String) : String := ⟨s.data.map Char.toUpper⟩

/-- `isPrefixB p l` is `true` iff the char list `p` is a prefix of `l`. -/
def isPrefixB : List Char → List Char → Bool
  | [], _ => true
  | _ :: _, [] => false
  | a :: as, b :: bs => a == b && isPrefixB as bs

/-- `containsB l pat`: does `l` contain `pat` as a contiguous run?
Models JS `String.prototype.includes` on the underlying chars. -/
def containsB : List Char → List Char → Bool
  | [], pat => pat.isEmpty
  | c :: rest, pat => isPrefixB pat (c :: rest) || containsB rest pat

/-- Models JS `String.prototype.includes`. -/
def jsIncludes (s pat : String) : Bool := containsB s.data pat.data

/-- Models JS `String.prototype.endsWith`. -/
def jsEndsWith (s pat : String) : Bool := isPrefixB pat.data.reverse s.data.reverse

/-- Models JS `String.prototype.trim` (leading and trailing whitespace
removed). -/
def jsTrim (s : String) : String :=
  ⟨((s.data.dropWhile Char.isWhitespace).reverse.dropWhile Char.isWhitespace).reverse⟩

/-- Models JS `String.prototype.padStart(targetLength, "0")`: left-pad with
zeros up to `targetLength`; a string already at least that long is returned
unchanged. -/
def padStart (targetLength : ℕ) (s : String) : String :=
  if targetLength ≤ s.length then s
  else ⟨List.replicate (targetLength - s.length) '0'⟩ ++ s

/-- Models the JS nullish-coalescing operator `a ?? b`. -/
def jsCoalesce {α : Type} (a b : Option α) : Option α :=
  match a with
  | some x => some x
  | none => b

/-! ## JS number coercion -/

/-- The numeric value of a decimal digit character. -/
def digitVal (c : Char) : ℕ := c.toNat - 48

/-- The natural number denoted by a list of decimal digit characters
(most significant first); `[]` denotes `0`. -/
def decValue (l : List Char) : ℕ := l.foldl (fun a c => a * 10 + digitVal c) 0

/-- Every character is a decimal digit and there is at least one. -/
def allDigits (l : List Char) : Bool := !l.isEmpty && l.all (·.isDigit)

/-- Strip an optional leading sign, returning the sign as `±1`. -/
def parseSign : List Char → ℤ × List Char
  | '+' :: rest => (1, rest)
  | '-' :: rest => (-1, rest)
  | l => (1, l)

/-- Split a char list at every occurrence of `sep` (like `"a.b".split(".")`). -/
def splitOnChar (sep : Char) : List Char → List (List Char)
  | [] => [[]]
  | c :: rest =>
    let r := splitOnChar sep rest
    if c == sep then [] :: r
    else
      match r with
      | [] => [[c]]
      | h :: t => (c :: h) :: t

/-- An unsigned decimal literal: digits with an optional decimal point
(`"12"`, `"12.5"`, `".5"`, `"5."`); at least one digit overall. -/
def parseUnsignedDec (l : List Char) : Option ℚ :=
  match splitOnChar '.' l with
  | [ip] => if allDigits ip then some (decValue ip) else none
  | [ip, fp] =>
    if ip.isEmpty && fp.isEmpty then none
    else if ip.all (·.isDigit) && fp.all (·.isDigit) then
      some ((decValue ip : ℚ) + (decValue fp : ℚ) / (10 : ℚ) ^ fp.length)
    else none
  | _ => none

/-- A signed decimal mantissa. -/
def parseMantissa (l : List Char) : Option ℚ :=
  let (sign, rest) := parseSign l
  (parseUnsignedDec rest).map (fun q => (sign : ℚ) * q)

/-- A signed decimal exponent (the part after `e`/`E`). -/
def parseExpDigits (l : List Char) : Option ℤ :=
  let (sign, rest) := parseSign l
  if allDigits rest then some (sign * decValue rest) else none

/-- Models JS `Number(string)` restricted to the forms the source can meet:
after trimming, the empty string is `0`, the `Infinity` forms are
non-finite, and otherwise a signed decimal literal with optional fraction
and exponent.  `none` models a non-finite result (`NaN`/`±Infinity`);
rationals are exact, so float rounding and overflow to `Infinity` are not
modelled, nor are the hex/octal/binary literal forms. -/
def jsStringToNumber (s : String) : Option ℚ :=
  let t := jsTrim s
  if t = "" then some 0
  else if t = "Infinity" || t = "+Infinity" || t = "-Infinity" then none
  else
    match splitOnChar 'e' (jsToLower t).data with
    | [m] => parseMantissa m
    | [m, e] => do
      let q ← parseMantissa m
      let z ← parseExpDigits e
      pure (q * (10 : ℚ) ^ z)
    | _ => none

/-- A JS value as it can appear at a leaf of the parsed XML document:
`null`, a string, or a number (`vnum none` models a non-finite number). -/
inductive JVal where
  | vnull
  | vstr (s : String)
  | vnum (q : Option ℚ)
deriving DecidableEq, Repr

/-- Models JS `Number(v)` on a `JVal`: `Number(null) = 0`, strings coerce
via `jsStringToNumber`, numbers are themselves. -/
def jsNumber : JVal → Option ℚ
  | .vnull => some 0
  | .vstr s => jsStringToNumber s
  | .vnum q => q

/-- Embeds `numOrUndef` of the source: `undefined` (here: `none`) and
`null` give `undefined`; otherwise `Number(v)` if finite, else
`undefined`. -/
def numOrUndef : Option JVal → Option ℚ
  | none => none
  | some .vnull => none
  | some v => jsNumber v

/-! ## `toArray` and the document model -/

/-- A field that may hold nothing, a single value, or an array, as produced
by the XML parser.  `absent` covers the JS-falsy case of the source's
`if (!x) return []` guard (the values of interest are objects, which are
always truthy). -/
inductive JArr (α : Type) where
  | absent
  | single (a : α)
  | seq (l : List α)

/-- Embeds `toArray` of the source. -/
def toArray {α : Type} : JArr α → List α
  | .absent => []
  | .single a => [a]
  | .seq l => l

/-- An element wrapping a string leaf in a `value` child (e.g.
`<securityTitle><value>…</value></securityTitle>`). -/
structure StrValue where
  value : Option String
deriving DecidableEq, Repr

/-- An element wrapping a numeric leaf in a `value` child. -/
structure NumValue where
  value : Option JVal
deriving DecidableEq, Repr

/-- The `transactionAmounts` element of a non-derivative transaction. -/
structure TransactionAmounts where
  transactionShares : Option NumValue
  transactionPricePerShare : Option NumValue
  transactionAcquiredDisposedCode : Option StrValue
deriving DecidableEq, Repr

/-- The `transactionCoding` element. -/
structure TransactionCoding where
  transactionCode : Option String
deriving DecidableEq, Repr

/-- The `ownershipNature` element. -/
structure OwnershipNature where
  directOrIndirectOwnership : Option StrValue
deriving DecidableEq, Repr

/-- A raw `nonDerivativeTransaction` element as parsed from the XML;
every sub-field may be absent at any level. -/
structure RawTxn where
  securityTitle : Option StrValue
  transactionDate : Option StrValue
  transactionCoding : Option TransactionCoding
  transactionAmounts : Option TransactionAmounts
  ownershipNature : Option OwnershipNature
deriving DecidableEq, Repr

/-- Embeds the `ParsedTxn` record type of the source. -/
structure ParsedTxn where
  securityTitle : Option String
  transactionDate : Option String
  transactionCode : Option String
  acquiredDisposed : Option String
  shares : Option ℚ
  price : Option ℚ
  totalValue : Option ℚ
  ownershipType : Option String
deriving DecidableEq, Repr

/-- The optional chain `t?.transactionAmounts?.transactionShares?.value`. -/
def sharesVal (t : RawTxn) : Option JVal :=
  (t.transactionAmounts.bind (·.transactionShares)).bind (·.value)

/-- The optional chain `t?.transactionAmounts?.transactionPricePerShare?.value`. -/
def priceVal (t : RawTxn) : Option JVal :=
  (t.transactionAmounts.bind (·.transactionPricePerShare)).bind (·.value)

/-- Embeds the body of the `nonDerivTxns.map` of `getForm4Details`: one raw
transaction element normalized to a `ParsedTxn`. -/
def mkParsedTxn (t : RawTxn) : ParsedTxn :=
  let shares := numOrUndef (sharesVal t)
  let price := numOrUndef (priceVal t)
  { securityTitle := t.securityTitle.bind (·.value)
    transactionDate := t.transactionDate.bind (·.value)
    transactionCode := t.transactionCoding.bind (·.transactionCode)
    acquiredDisposed :=
      (t.transactionAmounts.bind (·.transactionAcquiredDisposedCode)).bind (·.value)
    shares := shares
    price := price
    totalValue :=
      match shares, price with
      | some s, some p => some (s * p)
      | _, _ => none
    ownershipType :=
      (t.ownershipNature.bind (·.directOrIndirectOwnership)).bind (·.value) }

/-- The buy predicate of `getForm4Details`:
`x.transactionCode === "P" || x.acquiredDisposed === "A"`. -/
def isBuy (x : ParsedTxn) : Bool :=
  x.transactionCode == some "P" || x.acquiredDisposed == some "A"

/-- The sell predicate of `getForm4Details`:
`x.transactionCode === "S" || x.acquiredDisposed === "D"`. -/
def isSell (x : ParsedTxn) : Bool :=
  x.transactionCode == some "S" || x.acquiredDisposed == some "D"

/-- The `summary` record returned by `getForm4Details`. -/
structure TxnSummary where
  count : ℕ
  buys : ℕ
  sells : ℕ
deriving DecidableEq, Repr

/-- Embeds the classification/aggregation step of `getForm4Details`:
`buys`/`sells` are the lengths of the corresponding `filter`s. -/
def classifySummary (parsed : List ParsedTxn) : TxnSummary :=
  { count := parsed.length
    buys := (parsed.filter isBuy).length
    sells := (parsed.filter isSell).length }

/-! ## Reporting owners -/

/-- The `reportingOwnerId` element with its two legacy field-name variants
for the display name and the identifier. -/
structure ReportingOwnerId where
  rptOwnerName : Option String
  reportingOwnerName : Option String
  rptOwnerCik : Option String
  reportingOwnerCik : Option String
deriving DecidableEq, Repr

/-- A raw `reportingOwner` element. The relationship element is treated
as an opaque key/value mapping. -/
structure RawOwner where
  reportingOwnerId : Option ReportingOwnerId
  reportingOwnerRelationship : Option (List (String × String))
deriving DecidableEq, Repr

/-- A normalized reporting owner as produced by `getForm4Details`. -/
structure NormOwner where
  name : Option String
  cik : Option String
  relationship : List (String × String)
deriving DecidableEq, Repr

/-- Embeds the body of the `owners.map` of `getForm4Details`: name and cik
each read via `rptOwner… ?? reportingOwner…`, relationship via `?? {}`. -/
def mkNormOwner (o : RawOwner) : NormOwner :=
  { name := jsCoalesce (o.reportingOwnerId.bind (·.rptOwnerName))
      (o.reportingOwnerId.bind (·.reportingOwnerName))
    cik := jsCoalesce (o.reportingOwnerId.bind (·.rptOwnerCik))
      (o.reportingOwnerId.bind (·.reportingOwnerCik))
    relationship := o.reportingOwnerRelationship.getD [] }

/-- Embeds `toArray(root?.reportingOwner)` followed by the owner map. -/
def reportingOwnersOf (reportingOwner : JArr RawOwner) : List NormOwner :=
  (toArray reportingOwner).map mkNormOwner

/-! ## Ticker registry (`getTickerMap`, `padCik`, `getCikForTicker`) -/

/-- One row of the remote `company_tickers.json` snapshot.  The numeric
`cik_str`/`cik` fields are modelled as naturals (they are non-negative
integers on the wire); either may be absent. -/
structure TickerRow where
  cik_str : Option ℕ
  cik : Option ℕ
  ticker : String
deriving DecidableEq, Repr

/-- Models JS `String(n)` on a natural number: its decimal digit string. -/
def jsStringOfNat (n : ℕ) : String :=
  if n = 0 then "0"
  else ⟨((Nat.digits 10 n).reverse).map fun d => Char.ofNat (48 + d)⟩

/-- Embeds `padCik`: `String(cik).padStart(10, "0")`.  The `none` case
models JS `String(undefined) = "undefined"` when both cik fields are
absent. -/
def padCik (cik : Option ℕ) : String :=
  padStart 10 (match cik with
    | some n => jsStringOfNat n
    | none => "undefined")

/-- The module-level cache cell: `tickerMapCache` / `tickerMapFetchedAt`.
Times are in milliseconds, as `Date.now()` gives. -/
structure TickerCacheState where
  tickerMapCache : Option (List TickerRow)
  tickerMapFetchedAt : ℤ
deriving DecidableEq, Repr

/-- The freshness window: `24 * 60 * 60 * 1000` milliseconds. -/
def ONE_DAY : ℤ := 24 * 60 * 60 * 1000

/-- The wire shape of the remote snapshot: an array of rows, or an object
whose values are the rows (`Object.values` order). -/
inductive RemoteTickerData where
  | asArray (rows : List TickerRow)
  | asObject (rows : List TickerRow)
deriving DecidableEq, Repr

/-- `Array.isArray(data) ? data : Object.values(data)`. -/
def remoteRows : RemoteTickerData → List TickerRow
  | .asArray rows => rows
  | .asObject rows => rows

/-- Embeds `getTickerMap` as a state transition.  The suspended remote
fetch is abstracted by the `remote` argument (the data a fresh fetch
would return) and `now` abstracts `Date.now()`.  Returns the map the call
yields, the cache state after the call, and whether a remote fetch was
issued. -/
def getTickerMap (st : TickerCacheState) (now : ℤ) (remote : RemoteTickerData) :
    List TickerRow × TickerCacheState × Bool :=
  match st.tickerMapCache with
  | some c =>
    if now - st.tickerMapFetchedAt < ONE_DAY then (c, st, false)
    else
      let arr := remoteRows remote
      (arr, { tickerMapCache := some arr, tickerMapFetchedAt := now }, true)
  | none =>
    let arr := remoteRows remote
    (arr, { tickerMapCache := some arr, tickerMapFetchedAt := now }, true)

/-- Embeds `getCikForTicker`, given the current snapshot `map` (the list
`getTickerMap` returned).  `none` models the thrown `"Ticker not found"`
error. -/
def getCikForTicker (map : List TickerRow) (tickerRaw : String) :
    Option (String × String) :=
  let ticker := jsToUpper tickerRaw
  match map.find? (fun x => jsToUpper x.ticker == ticker) with
  | none => none
  | some row => some (ticker, padCik (jsCoalesce row.cik_str row.cik))

/-! ## Form-4 XML document selection (`findForm4XmlUrl`) -/

/-- One entry of the `directory.item` array of the filing's `index.json`;
the entry itself and its `name` field may each be missing. -/
structure DirItem where
  name : Option String
deriving DecidableEq, Repr

/-- `String(x?.name || "")`. -/
def itemName (x : Option DirItem) : String := (x.bind (·.name)).getD ""

/-- The XML file names of a listing:
`items.map(x => String(x?.name || "")).filter(n => n.toLowerCase().endsWith(".xml"))`. -/
def xmlFilesOf (items : List (Option DirItem)) : List String :=
  (items.map itemName).filter (fun n => jsEndsWith (jsToLower n) ".xml")

/-- The preference list of `findForm4XmlUrl`. -/
def preferredOrder : List String := ["form4.xml", "primary_doc.xml", "doc1.xml"]

/-- `preferredOrder.includes(f.toLowerCase())`. -/
def isPreferredName (f : String) : Bool := preferredOrder.contains (jsToLower f)

/-- `f.toLowerCase().includes("form4")`. -/
def hasForm4Sub (f : String) : Bool := jsIncludes (jsToLower f) "form4"

/-- `xmlFiles.find(pref) ?? xmlFiles.find(contains "form4") ?? xmlFiles[0]`. -/
def chooseXmlFile (xmlFiles : List String) : Option String :=
  jsCoalesce
    (jsCoalesce (xmlFiles.find? isPreferredName) (xmlFiles.find? hasForm4Sub))
    xmlFiles.head?

/-- Embeds the selection logic of `findForm4XmlUrl` on a directory
listing; `none` models the thrown `No XML files found` error. -/
def findForm4Xml (items : List (Option DirItem)) : Option String :=
  let xmlFiles := xmlFilesOf items
  if xmlFiles.length = 0 then none
  else chooseXmlFile xmlFiles

/-! ## Recent Form-4 filings (`getRecentForm4FilingsByTicker`) -/

/-- The `filings.recent` columnar substructure of the submissions feed;
each parallel array may be missing (the source applies `?? []`). -/
structure RecentFilings where
  form : Option (List String)
  accessionNumber : Option (List String)
  filingDate : Option (List String)
  primaryDocument : Option (List String)
  reportDate : Option (List String)
deriving DecidableEq, Repr

/-- The `filings` field of the submissions feed. -/
structure SubmissionFilings where
  recent : Option RecentFilings
deriving DecidableEq, Repr

/-- The submissions feed for one registrant. -/
structure Submissions where
  filings : Option SubmissionFilings
deriving DecidableEq, Repr

/-- One output entry pushed by the loop of `getRecentForm4FilingsByTicker`.
Fields other than `form` come from indexing the parallel arrays, which in
JS yields `undefined` past the end, hence `Option`. -/
structure FilingOut where
  form : String
  accessionNumber : Option String
  filingDate : Option String
  reportDate : Option String
  primaryDocument : Option String
deriving DecidableEq, Repr

/-- Membership in the requested form-type set `{"4", "4/A"}`. -/
def isForm4Type (f : String) : Bool := f == "4" || f == "4/A"

/-- One iteration of the loop at index `i`: push an entry iff
`forms[i] === "4" || forms[i] === "4/A"`. -/
def filingAt (forms accs dates reps docs : List String) (i : ℕ) :
    Option FilingOut :=
  match forms.get? i with
  | none => none
  | some f =>
    if f == "4" || f == "4/A" then
      some { form := f
             accessionNumber := accs.get? i
             filingDate := dates.get? i
             reportDate := reps.get? i
             primaryDocument := docs.get? i }
    else none

/-- The loop `for (let i = 0; i < forms.length; i++) … out.push(…)`. -/
def form4Loop (forms accs dates reps docs : List String) : List FilingOut :=
  (List.range forms.length).filterMap (filingAt forms accs dates reps docs)

/-- Filtering plus `out.slice(0, 25)` on the columnar `recent` data. -/
def filterRecentForm4 (r : RecentFilings) : List FilingOut :=
  (form4Loop (r.form.getD []) (r.accessionNumber.getD [])
    (r.filingDate.getD []) (r.reportDate.getD [])
    (r.primaryDocument.getD [])).take 25

/-- The result record of `getRecentForm4FilingsByTicker`. -/
structure RecentResult where
  ticker : String
  cik : String
  filings : List FilingOut
deriving DecidableEq, Repr

/-- Embeds `getRecentForm4FilingsByTicker`, given the current registry
snapshot `map` and the fetched submissions feed `subs`.  `none` models the
ticker-not-found failure. -/
def getRecentForm4FilingsByTicker (map : List TickerRow) (tickerRaw : String)
    (subs : Submissions) : Option RecentResult :=
  match getCikForTicker map tickerRaw with
  | none => none
  | some (ticker, cik) =>
    match subs.filings.bind (·.recent) with
    | none => some { ticker := ticker, cik := cik, filings := [] }
    | some r => some { ticker := ticker, cik := cik, filings := filterRecentForm4 r }

/-! ## Concrete sample inputs used by witnesses -/

/-- A normalized transaction with transaction code `"S"` but
acquired/disposed code `"A"` (the two signals disagree). -/
def mixedSignalTxn : ParsedTxn :=
  { securityTitle := none
    transactionDate := none
    transactionCode := some "S"
    acquiredDisposed := some "A"
    shares := none
    price := none
    totalValue := none
    ownershipType := none }

/-- A raw transaction with textual shares `"100"` and price `"12.5"`. -/
def sampleRawTxn : RawTxn :=
  { securityTitle := some ⟨some "Common Stock"⟩
    transactionDate := some ⟨some "2024-01-02"⟩
    transactionCoding := some ⟨some "P"⟩
    transactionAmounts := some
      { transactionShares := some ⟨some (.vstr "100")⟩
        transactionPricePerShare := some ⟨some (.vstr "12.5")⟩
        transactionAcquiredDisposedCode := some ⟨some "A"⟩ }
    ownershipNature := some ⟨some ⟨some "D"⟩⟩ }

/-- A raw transaction whose shares element is present with an empty
textual value and whose price element is missing. -/
def emptySharesTxn : RawTxn :=
  { securityTitle := none
    transactionDate := none
    transactionCoding := some ⟨some "S"⟩
    transactionAmounts := some
      { transactionShares := some ⟨some (.vstr "")⟩
        transactionPricePerShare := none
        transactionAcquiredDisposedCode := some ⟨some "D"⟩ }
    ownershipNature := none }

/-- A columnar filing history with one non-matching and one matching
filing. -/
def sampleRecent : RecentFilings :=
  { form := some ["10-K", "4"]
    accessionNumber := some ["a0", "a1"]
    filingDate := some ["d0", "d1"]
    primaryDocument := some ["p0", "p1"]
    reportDate := some ["r0", "r1"] }

/-! # Theorems -/

/-! ## Helper lemmas for the document locator -/

theorem chooseXmlFile_mem {xs : List String} (h : xs ≠ []) :
    ∃ c, chooseXmlFile xs = some c ∧ c ∈ xs := by
  unfold chooseXmlFile
  cases hp : xs.find? isPreferredName with
  | some f => exact ⟨f, by simp [jsCoalesce], List.mem_of_find?_eq_some hp⟩
  | none =>
    cases hf : xs.find? hasForm4Sub with
    | some f => exact ⟨f, by simp [jsCoalesce], List.mem_of_find?_eq_some hf⟩
    | none =>
      cases xs with
      | nil => exact absurd rfl h
      | cons a l => exact ⟨a, by simp [jsCoalesce], List.mem_cons_self a l⟩

theorem chooseXmlFile_some_mem {xs : List String} {c : String}
    (h : chooseXmlFile xs = some c) : c ∈ xs := by
  unfold chooseXmlFile at h
  cases hp : xs.find? isPreferredName with
  | some f =>
    rw [hp] at h; simp [jsCoalesce] at h
    exact h ▸ List.mem_of_find?_eq_some hp
  | none =>
    rw [hp] at h
    cases hf : xs.find? hasForm4Sub with
    | some f =>
      rw [hf] at h; simp [jsCoalesce] at h
      exact h ▸ List.mem_of_find?_eq_some hf
    | none =>
      rw [hf] at h; simp [jsCoalesce] at h
      cases xs with
      | nil => simp at h
      | cons a l =>
        simp at h
        exact h ▸ List.mem_cons_self a l

/-! ## C8: the locator considers exactly the `.xml` entries -/

/-- Claim C8: `locate` considers exactly the listing entries whose name ends
with the case-insensitive suffix `".xml"`, and fails (models the
`NoDocumentError`) iff zero such names are present; any selected document
is one of those names. -/
theorem locate_xml_filter_spec (items : List (Option DirItem)) :
    (∀ f, f ∈ xmlFilesOf items ↔
      f ∈ items.map itemName ∧ jsEndsWith (jsToLower f) ".xml" = true) ∧
    (findForm4Xml items = none ↔ xmlFilesOf items = []) ∧
    (∀ c, findForm4Xml items = some c →
      c ∈ items.map itemName ∧ jsEndsWith (jsToLower c) ".xml" = true) := by
  refine ⟨fun f => List.mem_filter, ?_, ?_⟩
  · unfold findForm4Xml
    by_cases h : xmlFilesOf items = []
    · simp [h]
    · have hlen : ¬(xmlFilesOf items).length = 0 := by
        simpa [List.length_eq_zero] using h
      obtain ⟨c, hc, -⟩ := chooseXmlFile_mem h
      simp [hlen, hc, h]
  · intro c hc
    unfold findForm4Xml at hc
    by_cases h : (xmlFilesOf items).length = 0
    · simp [h] at hc
    · rw [if_neg h] at hc
      exact List.mem_filter.mp (chooseXmlFile_some_mem hc)

/-- Witness for C8 at a concrete listing with one XML file and one
non-XML file. -/
theorem locate_xml_filter_spec_witness :
    ("a.xml" ∈ xmlFilesOf [some ⟨some "a.xml"⟩, some ⟨some "b.txt"⟩] ↔
      "a.xml" ∈ [some (DirItem.mk (some "a.xml")),
        some (DirItem.mk (some "b.txt"))].map itemName ∧
        jsEndsWith (jsToLower "a.xml") ".xml" = true) ∧
    (findForm4Xml [some ⟨some "b.txt"⟩] = none ↔
      xmlFilesOf [some ⟨some "b.txt"⟩] = []) :=
  ⟨(locate_xml_filter_spec [some ⟨some "a.xml"⟩, some ⟨some "b.txt"⟩]).1 "a.xml",
    (locate_xml_filter_spec [some ⟨some "b.txt"⟩]).2.1⟩

/-! ## C3: the locator's selection priority -/

/-- Claim C3: on a listing with at least one XML file, selection follows the
priority order: first XML name matching the preference list exactly and
case-insensitively; else first XML name containing `"form4"`
case-insensitively; else the first XML file in listing order.  In
particular it is deterministic: a listing of `primary_doc.xml` and
`random.xml` (either order) yields `primary_doc.xml`, and a listing of
only `random.xml` yields `random.xml`. -/
theorem locate_priority_spec (items : List (Option DirItem))
    (h : xmlFilesOf items ≠ []) :
    (∀ f, (xmlFilesOf items).find? isPreferredName = some f →
      findForm4Xml items = some f) ∧
    ((xmlFilesOf items).find? isPreferredName = none →
      ∀ f, (xmlFilesOf items).find? hasForm4Sub = some f →
        findForm4Xml items = some f) ∧
    ((xmlFilesOf items).find? isPreferredName = none →
      (xmlFilesOf items).find? hasForm4Sub = none →
      findForm4Xml items = (xmlFilesOf items).head?) ∧
    findForm4Xml [some ⟨some "primary_doc.xml"⟩, some ⟨some "random.xml"⟩] =
      some "primary_doc.xml" ∧
    findForm4Xml [some ⟨some "random.xml"⟩, some ⟨some "primary_doc.xml"⟩] =
      some "primary_doc.xml" ∧
    findForm4Xml [some ⟨some "random.xml"⟩] = some "random.xml" := by
  have hlen : ¬(xmlFilesOf items).length = 0 := by
    simpa [List.length_eq_zero] using h
  refine ⟨?_, ?_, ?_, by decide, by decide, by decide⟩
  · intro f hf
    unfold findForm4Xml
    rw [if_neg hlen]
    unfold chooseXmlFile
    rw [hf]
    simp [jsCoalesce]
  · intro hp f hf
    unfold findForm4Xml
    rw [if_neg hlen]
    unfold chooseXmlFile
    rw [hp, hf]
    simp [jsCoalesce]
  · intro hp hf
    unfold findForm4Xml
    rw [if_neg hlen]
    unfold chooseXmlFile
    rw [hp, hf]
    simp [jsCoalesce]

/-- Witness for C3: the fallback case on the listing holding only
`random.xml`. -/
theorem locate_priority_spec_witness :
    findForm4Xml [some ⟨some "random.xml"⟩] =
      (xmlFilesOf [some ⟨some "random.xml"⟩]).head? :=
  (locate_priority_spec [some ⟨some "random.xml"⟩] (by decide)).2.2.1
    (by decide) (by decide)

/-! ## C4: filtering the filing history -/

theorem filterMap_eq_map_filter {α β : Type} (f : α → Option β) (p : α → Bool)
    (g : α → β) (l : List α)
    (hf : ∀ a ∈ l, f a = if p a then some (g a) else none) :
    l.filterMap f = (l.filter p).map g := by
  induction l with
  | nil => rfl
  | cons a l ih =>
    have ha := hf a (List.mem_cons_self a l)
    have ih' := ih fun x hx => hf x (List.mem_cons_of_mem a hx)
    by_cases hp : p a = true <;>
      simp [List.filterMap_cons, List.filter_cons, ha, hp, ih']

/-- Claim C4: the result never exceeds 25 entries and contains only form
types `"4"`/`"4/A"`; and it equals the whole history filtered by form
type first and only then truncated to the first 25 matches, so matches
past position 25 of the history are still returned. -/
theorem filterRecent_spec (r : RecentFilings) :
    (filterRecentForm4 r).length ≤ 25 ∧
    (∀ x ∈ filterRecentForm4 r, x.form = "4" ∨ x.form = "4/A") ∧
    filterRecentForm4 r =
      (((List.range (r.form.getD []).length).filter
          (fun i => isForm4Type ((r.form.getD []).getD i ""))).map
        (fun i =>
          { form := (r.form.getD []).getD i ""
            accessionNumber := (r.accessionNumber.getD []).get? i
            filingDate := (r.filingDate.getD []).get? i
            reportDate := (r.reportDate.getD []).get? i
            primaryDocument := (r.primaryDocument.getD []).get? i })).take 25 := by
  have key : form4Loop (r.form.getD []) (r.accessionNumber.getD [])
      (r.filingDate.getD []) (r.reportDate.getD []) (r.primaryDocument.getD []) =
      ((List.range (r.form.getD []).length).filter
          (fun i => isForm4Type ((r.form.getD []).getD i ""))).map
        (fun i =>
          { form := (r.form.getD []).getD i ""
            accessionNumber := (r.accessionNumber.getD []).get? i
            filingDate := (r.filingDate.getD []).get? i
            reportDate := (r.reportDate.getD []).get? i
            primaryDocument := (r.primaryDocument.getD []).get? i }) := by
    apply filterMap_eq_map_filter
    intro i hi
    have hlt : i < (r.form.getD []).length := List.mem_range.mp hi
    obtain ⟨f, hf⟩ : ∃ f, (r.form.getD []).get? i = some f :=
      ⟨_, List.get?_eq_get hlt⟩
    have hd : (r.form.getD []).getD i "" = f := by
      rw [List.getD_eq_getElem?_getD, ← List.get?_eq_getElem?, hf]; rfl
    unfold filingAt
    rw [hf, hd]
    rfl
  refine ⟨?_, ?_, ?_⟩
  · exact List.length_take_le 25 _
  · intro x hx
    unfold filterRecentForm4 at hx
    have hx' := List.take_subset _ _ hx
    obtain ⟨i, hi, hfa⟩ := List.mem_filterMap.mp hx'
    unfold filingAt at hfa
    cases hg : (r.form.getD []).get? i with
    | none => rw [hg] at hfa; simp at hfa
    | some f =>
      rw [hg] at hfa
      dsimp only at hfa
      by_cases hft : (f == "4" || f == "4/A") = true
      · rw [if_pos hft] at hfa
        cases hfa
        simpa using hft
      · rw [if_neg hft] at hfa
        simp at hfa
  · unfold filterRecentForm4
    rw [key]

/-- Witness for C4: the matching filing of the concrete history appears
in the result with form `"4"`. -/
theorem filterRecent_spec_witness :
    ({ form := "4", accessionNumber := some "a1", filingDate := some "d1",
        reportDate := some "r1", primaryDocument := some "p1" } : FilingOut).form = "4" ∨
    ({ form := "4", accessionNumber := some "a1", filingDate := some "d1",
        reportDate := some "r1", primaryDocument := some "p1" } : FilingOut).form = "4/A" :=
  (filterRecent_spec sampleRecent).2.1 _ (by decide)

/-! ## C9: missing recent-filings substructure gives an empty sequence -/

/-- Claim C9: when the submissions feed lacks the recent-filings
substructure, `listRecentFilings` still succeeds, returning the resolved
ticker and identifier with an empty filing sequence. -/
theorem missing_recent_spec (map : List TickerRow) (raw : String)
    (subs : Submissions) (t c : String)
    (hres : getCikForTicker map raw = some (t, c))
    (hrec : subs.filings.bind (·.recent) = none) :
    getRecentForm4FilingsByTicker map raw subs =
      some { ticker := t, cik := c, filings := [] } := by
  unfold getRecentForm4FilingsByTicker
  rw [hres, hrec]

/-- Witness for C9 at a one-row registry and a feed with no `filings`
field at all. -/
theorem missing_recent_spec_witness :
    getRecentForm4FilingsByTicker [⟨some 320193, none, "AAPL"⟩] "aapl"
        ⟨none⟩ =
      some { ticker := jsToUpper "aapl"
             cik := padCik (jsCoalesce (some 320193) none)
             filings := [] } :=
  missing_recent_spec [⟨some 320193, none, "AAPL"⟩] "aapl" ⟨none⟩
    (jsToUpper "aapl") (padCik (jsCoalesce (some 320193) none)) rfl rfl

/-! ## C5: freshness window of the ticker-map cache -/

theorem getTickerMap_installs_snapshot (st : TickerCacheState) (now : ℤ)
    (r : RemoteTickerData) :
    ∃ c, (getTickerMap st now r).2.1.tickerMapCache = some c := by
  unfold getTickerMap
  cases h : st.tickerMapCache with
  | none => exact ⟨remoteRows r, rfl⟩
  | some c =>
    by_cases hfresh : now - st.tickerMapFetchedAt < ONE_DAY
    · exact ⟨c, by simp [hfresh, h]⟩
    · exact ⟨remoteRows r, by simp [hfresh]⟩

theorem getTickerMap_fresh_hit (st : TickerCacheState) (now : ℤ)
    (r : RemoteTickerData) (c : List TickerRow)
    (hc : st.tickerMapCache = some c)
    (h : now - st.tickerMapFetchedAt < ONE_DAY) :
    getTickerMap st now r = (c, st, false) := by
  unfold getTickerMap
  simp [hc, h]

/-- Claim C5: a second call within the freshness window of the snapshot
installed by the first call issues no fetch and leaves the cache state
untouched, so two calls within the window never issue two fetches; a
call that finds the snapshot fresh returns it without fetching; once the
snapshot is stale (or missing), the call issues a fetch and installs the
fetched rows and the current time as a complete replacement. -/
theorem ticker_cache_freshness_spec (st : TickerCacheState) (now1 now2 : ℤ)
    (r1 r2 : RemoteTickerData) :
    (now2 - (getTickerMap st now1 r1).2.1.tickerMapFetchedAt < ONE_DAY →
      (getTickerMap (getTickerMap st now1 r1).2.1 now2 r2).2.2 = false ∧
      (getTickerMap (getTickerMap st now1 r1).2.1 now2 r2).2.1 =
        (getTickerMap st now1 r1).2.1) ∧
    (∀ c, st.tickerMapCache = some c → now1 - st.tickerMapFetchedAt < ONE_DAY →
      getTickerMap st now1 r1 = (c, st, false)) ∧
    (∀ c, st.tickerMapCache = some c → ONE_DAY ≤ now1 - st.tickerMapFetchedAt →
      getTickerMap st now1 r1 =
        (remoteRows r1,
          { tickerMapCache := some (remoteRows r1), tickerMapFetchedAt := now1 },
          true)) ∧
    (st.tickerMapCache = none →
      getTickerMap st now1 r1 =
        (remoteRows r1,
          { tickerMapCache := some (remoteRows r1), tickerMapFetchedAt := now1 },
          true)) := by
  refine ⟨?_, ?_, ?_, ?_⟩
  · intro h2
    obtain ⟨c, hc⟩ := getTickerMap_installs_snapshot st now1 r1
    rw [getTickerMap_fresh_hit _ now2 r2 c hc h2]
    exact ⟨rfl, rfl⟩
  · intro c hc hfresh
    exact getTickerMap_fresh_hit st now1 r1 c hc hfresh
  · intro c hc hstale
    unfold getTickerMap
    simp [hc, not_lt.mpr hstale]
  · intro hc
    unfold getTickerMap
    simp [hc]

/-- Witness for C5: from an empty cache at time 0, the first call
fetches; a second call at time 1 (within the window) does not fetch and
keeps the state. -/
theorem ticker_cache_freshness_spec_witness :
    ((getTickerMap (getTickerMap ⟨none, 0⟩ 0
          (.asArray [⟨some 1, none, "T"⟩])).2.1 1 (.asArray [])).2.2 = false ∧
      (getTickerMap (getTickerMap ⟨none, 0⟩ 0
          (.asArray [⟨some 1, none, "T"⟩])).2.1 1 (.asArray [])).2.1 =
        (getTickerMap ⟨none, 0⟩ 0 (.asArray [⟨some 1, none, "T"⟩])).2.1) ∧
    getTickerMap (⟨none, 0⟩ : TickerCacheState) 0
        (.asArray [⟨some 1, none, "T"⟩]) =
      ([⟨some 1, none, "T"⟩],
        { tickerMapCache := some [⟨some 1, none, "T"⟩], tickerMapFetchedAt := 0 },
        true) :=
  ⟨(ticker_cache_freshness_spec ⟨none, 0⟩ 0 1
        (.asArray [⟨some 1, none, "T"⟩]) (.asArray [])).1 (by decide),
    (ticker_cache_freshness_spec ⟨none, 0⟩ 0 1
        (.asArray [⟨some 1, none, "T"⟩]) (.asArray [])).2.2.2 rfl⟩

/-! ## C7: reporting-owner normalization -/

/-- Claim C7: a single reporting-owner object is normalized to a
one-element sequence, and each owner's name and identifier prefer the
`rptOwner…` field variant and fall back to the `reportingOwner…`
variant. -/
theorem owners_normalization_spec (o : RawOwner) (oid : ReportingOwnerId) :
    reportingOwnersOf (.single o) = [mkNormOwner o] ∧
    (reportingOwnersOf (.single o)).length = 1 ∧
    reportingOwnersOf .absent = [] ∧
    (∀ l, reportingOwnersOf (.seq l) = l.map mkNormOwner) ∧
    (o.reportingOwnerId = some oid →
      (∀ n, oid.rptOwnerName = some n → (mkNormOwner o).name = some n) ∧
      (oid.rptOwnerName = none →
        (mkNormOwner o).name = oid.reportingOwnerName) ∧
      (∀ k, oid.rptOwnerCik = some k → (mkNormOwner o).cik = some k) ∧
      (oid.rptOwnerCik = none →
        (mkNormOwner o).cik = oid.reportingOwnerCik)) := by
  refine ⟨rfl, rfl, rfl, fun l => rfl, ?_⟩
  intro hid
  refine ⟨?_, ?_, ?_, ?_⟩
  · intro n hn; simp [mkNormOwner, hid, hn, jsCoalesce]
  · intro hn; simp [mkNormOwner, hid, hn, jsCoalesce]
  · intro k hk; simp [mkNormOwner, hid, hk, jsCoalesce]
  · intro hk; simp [mkNormOwner, hid, hk, jsCoalesce]

/-- Witness for C7 at a concrete owner having only the legacy
`reportingOwnerName` variant and the modern `rptOwnerCik` variant. -/
theorem owners_normalization_spec_witness :
    reportingOwnersOf (.single ⟨some ⟨none, some "Jane", some "123", none⟩, none⟩) =
      [mkNormOwner ⟨some ⟨none, some "Jane", some "123", none⟩, none⟩] ∧
    (mkNormOwner ⟨some ⟨none, some "Jane", some "123", none⟩, none⟩).name =
      (⟨none, some "Jane", some "123", none⟩ : ReportingOwnerId).reportingOwnerName ∧
    (mkNormOwner ⟨some ⟨none, some "Jane", some "123", none⟩, none⟩).cik =
      some "123" := by
  have h := owners_normalization_spec
    ⟨some ⟨none, some "Jane", some "123", none⟩, none⟩
    ⟨none, some "Jane", some "123", none⟩
  exact ⟨h.1, (h.2.2.2.2 rfl).2.1 rfl, (h.2.2.2.2 rfl).2.2.1 "123" rfl⟩

/-! ## Decimal-representation lemmas for `jsStringOfNat` and `padStart` -/

theorem String_length_data (s : String) : s.length = s.data.length := rfl

theorem digitVal_ofNat (d : ℕ) (hd : d < 10) :
    digitVal (Char.ofNat (48 + d)) = d := by
  interval_cases d <;> decide

theorem isDigit_ofNat (d : ℕ) (hd : d < 10) :
    (Char.ofNat (48 + d)).isDigit = true := by
  interval_cases d <;> decide

theorem jsStringOfNat_length (n : ℕ) (hn : n ≠ 0) :
    (jsStringOfNat n).length = (Nat.digits 10 n).length := by
  rw [jsStringOfNat, if_neg hn, String_length_data]
  simp

theorem jsStringOfNat_length_le (n : ℕ) (h : n < 10 ^ 10) :
    (jsStringOfNat n).length ≤ 10 := by
  by_cases hn : n = 0
  · subst hn; decide
  · rw [jsStringOfNat_length n hn, Nat.digits_len 10 n (by norm_num) hn]
    exact Nat.succ_le_of_lt (Nat.log_lt_of_lt_pow hn h)

theorem jsStringOfNat_digits (n : ℕ) :
    ∀ ch ∈ (jsStringOfNat n).data, ch.isDigit = true := by
  intro ch hch
  by_cases hn : n = 0
  · subst hn
    rw [show (jsStringOfNat 0).data = ['0'] from rfl, List.mem_singleton] at hch
    subst hch; decide
  · rw [jsStringOfNat, if_neg hn] at hch
    obtain ⟨d, hd, rfl⟩ := List.mem_map.mp hch
    exact isDigit_ofNat d
      (Nat.digits_lt_base (by norm_num) (List.mem_reverse.mp hd))

theorem decValue_digitChars (l : List ℕ) (hl : ∀ d ∈ l, d < 10) :
    decValue (l.reverse.map (fun d => Char.ofNat (48 + d))) = Nat.ofDigits 10 l := by
  induction l with
  | nil => rfl
  | cons d t ih =>
    rw [List.reverse_cons, List.map_append, List.map_singleton]
    have hstep : decValue
        ((t.reverse.map fun d => Char.ofNat (48 + d)) ++ [Char.ofNat (48 + d)]) =
        decValue (t.reverse.map fun d => Char.ofNat (48 + d)) * 10 +
          digitVal (Char.ofNat (48 + d)) := by
      rw [decValue, List.foldl_append]
      rfl
    rw [hstep, ih (fun x hx => hl x (List.mem_cons_of_mem d hx)),
      digitVal_ofNat d (hl d (List.mem_cons_self d t)), Nat.ofDigits_cons]
    ring

theorem decValue_jsStringOfNat (n : ℕ) : decValue (jsStringOfNat n).data = n := by
  by_cases hn : n = 0
  · subst hn; decide
  · rw [jsStringOfNat, if_neg hn]
    show decValue ((Nat.digits 10 n).reverse.map fun d => Char.ofNat (48 + d)) = n
    rw [decValue_digitChars _ (fun d hd => Nat.digits_lt_base (by norm_num) hd),
      Nat.ofDigits_digits]

theorem padStart_data (k : ℕ) (s : String) :
    (padStart k s).data =
      if k ≤ s.length then s.data
      else List.replicate (k - s.length) '0' ++ s.data := by
  unfold padStart
  split <;> rfl

theorem padStart_length (k : ℕ) (s : String) (h : s.length ≤ k) :
    (padStart k s).length = k := by
  have hsd : s.length = s.data.length := rfl
  rw [String_length_data, padStart_data]
  split
  · omega
  · simp
    omega

theorem padStart_of_le (k : ℕ) (s : String) (h : k ≤ s.length) :
    padStart k s = s := by
  unfold padStart
  rw [if_pos h]

theorem decValue_replicate_zero_append (k : ℕ) (l : List Char) :
    decValue (List.replicate k '0' ++ l) = decValue l := by
  induction k with
  | zero => rfl
  | succ k ih =>
    rw [List.replicate_succ, List.cons_append]
    show List.foldl _ (0 * 10 + digitVal '0') _ = _
    have h0 : 0 * 10 + digitVal '0' = 0 := by decide
    rw [h0]
    exact ih

theorem padded_cik_spec (n : ℕ) (hlt : n < 10 ^ 10) :
    (padCik (some n)).length = 10 ∧
    (∀ ch ∈ (padCik (some n)).data, ch.isDigit = true) ∧
    decValue (padCik (some n)).data = n := by
  have hpc : padCik (some n) = padStart 10 (jsStringOfNat n) := rfl
  have hle := jsStringOfNat_length_le n hlt
  refine ⟨by rw [hpc]; exact padStart_length 10 _ hle, ?_, ?_⟩
  · intro ch hch
    rw [hpc, padStart_data] at hch
    split at hch
    · exact jsStringOfNat_digits n ch hch
    · rcases List.mem_append.mp hch with h | h
      · rw [List.eq_of_mem_replicate h]; decide
      · exact jsStringOfNat_digits n ch h
  · rw [hpc, padStart_data]
    split
    · exact decValue_jsStringOfNat n
    · rw [decValue_replicate_zero_append]
      exact decValue_jsStringOfNat n

/-! ## C6: ticker resolution (amended) -/

/-- Claim C6, amended: `resolveTicker` normalizes its input to uppercase
and matches it exactly and case-insensitively against the snapshot,
returning `none` (models `NotFoundError`) iff no row matches; two inputs
with the same uppercasing resolve identically; and when the matched
row's numeric identifier is below `10^10` the returned identifier is
exactly 10 characters, all digits, left-zero-padded, denoting that same
number.  (The original claim, without the `10^10` bound, is refuted by
`resolve_ticker_counterexample`.) -/
theorem resolve_ticker_spec (map : List TickerRow) (raw raw2 : String) :
    (getCikForTicker map raw = none ↔
      ∀ row ∈ map, jsToUpper row.ticker ≠ jsToUpper raw) ∧
    (jsToUpper raw = jsToUpper raw2 →
      getCikForTicker map raw = getCikForTicker map raw2) ∧
    (∀ t c, getCikForTicker map raw = some (t, c) →
      t = jsToUpper raw ∧
      ∃ row, row ∈ map ∧ jsToUpper row.ticker = jsToUpper raw ∧
        c = padCik (jsCoalesce row.cik_str row.cik) ∧
        ∀ n, jsCoalesce row.cik_str row.cik = some n → n < 10 ^ 10 →
          c.length = 10 ∧ (∀ ch ∈ c.data, ch.isDigit = true) ∧
            decValue c.data = n) := by
  refine ⟨?_, ?_, ?_⟩
  · simp only [getCikForTicker]
    cases hf : map.find? (fun x => jsToUpper x.ticker == jsToUpper raw) with
    | none =>
      rw [List.find?_eq_none] at hf
      simp
      intro row hrow
      simpa using hf row hrow
    | some row =>
      have hrow : jsToUpper row.ticker = jsToUpper raw := by
        simpa using List.find?_some hf
      have hmem := List.mem_of_find?_eq_some hf
      simp
      exact ⟨row, hmem, hrow⟩
  · intro h
    simp only [getCikForTicker, h]
  · intro t c h
    simp only [getCikForTicker] at h
    cases hf : map.find? (fun x => jsToUpper x.ticker == jsToUpper raw) with
    | none => rw [hf] at h; cases h
    | some row =>
      rw [hf] at h
      simp only [Option.some.injEq, Prod.mk.injEq] at h
      obtain ⟨ht, hc⟩ := h
      refine ⟨ht.symm, row, List.mem_of_find?_eq_some hf,
        by simpa using List.find?_some hf, hc.symm, ?_⟩
      intro n hn hlt
      rw [← hc, hn]
      exact padded_cik_spec n hlt

/-- Witness for C6 at a one-row snapshot for `"aapl"`: the resolved
identifier for CIK 320193 has exactly 10 characters. -/
theorem resolve_ticker_spec_witness :
    (padCik (jsCoalesce (some 320193) (none : Option ℕ))).length = 10 := by
  have h := (resolve_ticker_spec [⟨some 320193, none, "AAPL"⟩] "aapl" "AAPL").2.2
    (jsToUpper "aapl") (padCik (jsCoalesce (some 320193) none)) rfl
  obtain ⟨-, row, hmem, -, hc, hpad⟩ := h
  rw [List.mem_singleton] at hmem
  subst hmem
  rw [hc]
  exact (hpad 320193 rfl (by norm_num)).1

/-- Claim C6, counterexample: with a snapshot row whose numeric identifier
is `10^10` (an 11-digit number), the returned identifier has 11
characters, not 10, because `padStart` never truncates. -/
theorem resolve_ticker_counterexample :
    (getCikForTicker [⟨some (10 ^ 10), none, "BIG"⟩] "big").map
        (fun p => p.2.length) = some 11 := by
  have hfind : List.find? (fun x : TickerRow => jsToUpper x.ticker == jsToUpper "big")
      [⟨some (10 ^ 10), none, "BIG"⟩] =
        some (⟨some (10 ^ 10), none, "BIG"⟩ : TickerRow) :=
    List.find?_cons_of_pos _ (by decide)
  have h1 : getCikForTicker [⟨some (10 ^ 10), none, "BIG"⟩] "big" =
      some (jsToUpper "big", padCik (some (10 ^ 10))) := by
    simp only [getCikForTicker, hfind]
    rfl
  rw [h1, Option.map_some']
  have hlen : (jsStringOfNat (10 ^ 10)).length = 11 := by
    have h2 := jsStringOfNat_length (10 ^ 10) (by norm_num)
    have h3 := Nat.digits_len 10 (10 ^ 10) (by norm_num) (by norm_num)
    have h4 := Nat.log_pow (show (1 : ℕ) < 10 by norm_num) 10
    omega
  have hpc : padCik (some (10 ^ 10)) = padStart 10 (jsStringOfNat (10 ^ 10)) := rfl
  have hpads : padStart 10 (jsStringOfNat (10 ^ 10)) = jsStringOfNat (10 ^ 10) :=
    padStart_of_le 10 _ (by omega)
  have hfinal : (padCik (some (10 ^ 10))).length = 11 := by
    rw [hpc, hpads]; exact hlen
  rw [hfinal]

/-! ## Projection lemmas for `mkParsedTxn` -/

theorem mkParsedTxn_shares (t : RawTxn) :
    (mkParsedTxn t).shares = numOrUndef (sharesVal t) := rfl

theorem mkParsedTxn_price (t : RawTxn) :
    (mkParsedTxn t).price = numOrUndef (priceVal t) := rfl

theorem mkParsedTxn_totalValue (t : RawTxn) :
    (mkParsedTxn t).totalValue =
      match numOrUndef (sharesVal t), numOrUndef (priceVal t) with
      | some s, some p => some (s * p)
      | _, _ => none := rfl

theorem isBuy_eq_decide (x : ParsedTxn) :
    isBuy x = decide (x.transactionCode = some "P" ∨ x.acquiredDisposed = some "A") := by
  by_cases h1 : x.transactionCode = some "P" <;>
    by_cases h2 : x.acquiredDisposed = some "A" <;>
      simp [isBuy, h1, h2]

theorem isSell_eq_decide (x : ParsedTxn) :
    isSell x = decide (x.transactionCode = some "S" ∨ x.acquiredDisposed = some "D") := by
  by_cases h1 : x.transactionCode = some "S" <;>
    by_cases h2 : x.acquiredDisposed = some "D" <;>
      simp [isSell, h1, h2]

/-! ## C1: buy/sell classification and summary -/

/-- Claim C1: `classify` counts a transaction as a buy iff its transaction
code is `"P"` or its acquired/disposed code is `"A"`, and as a sell iff
its code is `"S"` or its acquired/disposed code is `"D"`; the signals are
independent and non-exclusive, so a transaction with code `"S"` and
acquired/disposed `"A"` counts once in each tally; the summary reports
the sequence length together with the two tallies. -/
theorem classify_buy_sell_spec (parsed : List ParsedTxn) :
    (classifySummary parsed).count = parsed.length ∧
    (classifySummary parsed).buys =
      parsed.countP
        (fun x => decide (x.transactionCode = some "P" ∨ x.acquiredDisposed = some "A")) ∧
    (classifySummary parsed).sells =
      parsed.countP
        (fun x => decide (x.transactionCode = some "S" ∨ x.acquiredDisposed = some "D")) ∧
    ∀ t : ParsedTxn, t.transactionCode = some "S" → t.acquiredDisposed = some "A" →
      isBuy t = true ∧ isSell t = true ∧
      classifySummary (parsed ++ [t]) =
        ⟨parsed.length + 1, (classifySummary parsed).buys + 1,
          (classifySummary parsed).sells + 1⟩ := by
  refine ⟨rfl, ?_, ?_, ?_⟩
  · rw [show (classifySummary parsed).buys = parsed.countP isBuy from
      (List.countP_eq_length_filter _ _).symm]
    exact List.countP_congr (fun a _ => by rw [isBuy_eq_decide])
  · rw [show (classifySummary parsed).sells = parsed.countP isSell from
      (List.countP_eq_length_filter _ _).symm]
    exact List.countP_congr (fun a _ => by rw [isSell_eq_decide])
  · intro t h1 h2
    have hb : isBuy t = true := by simp [isBuy, h1, h2]
    have hs : isSell t = true := by simp [isSell, h1, h2]
    refine ⟨hb, hs, ?_⟩
    simp [classifySummary, List.filter_append, hb, hs]

/-- Witness for C1 at the empty list and a concrete mixed-signal
transaction. -/
theorem classify_buy_sell_spec_witness :
    isBuy mixedSignalTxn = true ∧ isSell mixedSignalTxn = true ∧
    classifySummary ([] ++ [mixedSignalTxn]) =
      ⟨List.length ([] : List ParsedTxn) + 1, (classifySummary []).buys + 1,
        (classifySummary []).sells + 1⟩ :=
  (classify_buy_sell_spec []).2.2.2 mixedSignalTxn rfl rfl

/-! ## C2: numeric coercion of shares/price and totalValue -/

/-- Claim C2: the shares and price of a parsed transaction are the numeric
coercion of their textual values; a missing value, a `null`, or a
non-finite coercion yields an absent field (never zero, never an error);
and `totalValue` is exactly shares × price when both are present,
otherwise absent. -/
theorem parse_numeric_fields_spec (t : RawTxn) :
    ((∀ s : String, sharesVal t = some (.vstr s) →
        (mkParsedTxn t).shares = jsStringToNumber s) ∧
      (sharesVal t = none → (mkParsedTxn t).shares = none) ∧
      (sharesVal t = some .vnull → (mkParsedTxn t).shares = none) ∧
      (sharesVal t = some (.vnum none) → (mkParsedTxn t).shares = none)) ∧
    ((∀ s : String, priceVal t = some (.vstr s) →
        (mkParsedTxn t).price = jsStringToNumber s) ∧
      (priceVal t = none → (mkParsedTxn t).price = none) ∧
      (priceVal t = some .vnull → (mkParsedTxn t).price = none) ∧
      (priceVal t = some (.vnum none) → (mkParsedTxn t).price = none)) ∧
    (∀ a b : ℚ, (mkParsedTxn t).shares = some a → (mkParsedTxn t).price = some b →
      (mkParsedTxn t).totalValue = some (a * b)) ∧
    ((mkParsedTxn t).shares = none ∨ (mkParsedTxn t).price = none →
      (mkParsedTxn t).totalValue = none) := by
  refine ⟨⟨?_, ?_, ?_, ?_⟩, ⟨?_, ?_, ?_, ?_⟩, ?_, ?_⟩
  · intro s h; rw [mkParsedTxn_shares, h]; simp [numOrUndef, jsNumber]
  · intro h; rw [mkParsedTxn_shares, h]; simp [numOrUndef]
  · intro h; rw [mkParsedTxn_shares, h]; simp [numOrUndef]
  · intro h; rw [mkParsedTxn_shares, h]; simp [numOrUndef, jsNumber]
  · intro s h; rw [mkParsedTxn_price, h]; simp [numOrUndef, jsNumber]
  · intro h; rw [mkParsedTxn_price, h]; simp [numOrUndef]
  · intro h; rw [mkParsedTxn_price, h]; simp [numOrUndef]
  · intro h; rw [mkParsedTxn_price, h]; simp [numOrUndef, jsNumber]
  · intro a b ha hb
    rw [mkParsedTxn_shares] at ha
    rw [mkParsedTxn_price] at hb
    rw [mkParsedTxn_totalValue, ha, hb]
  · intro h
    rw [mkParsedTxn_totalValue]
    rcases h with h | h
    · rw [mkParsedTxn_shares] at h; rw [h]
    · rw [mkParsedTxn_price] at h; rw [h]
      rcases numOrUndef (sharesVal t) with _ | q <;> rfl

/-- Witness for C2: shares `"100"` and price `"12.5"` give
`totalValue = 1250`. -/
theorem parse_numeric_fields_spec_witness :
    (mkParsedTxn sampleRawTxn).totalValue = some ((100 : ℚ) * (25 / 2)) :=
  (parse_numeric_fields_spec sampleRawTxn).2.2.1 100 (25 / 2)
    (by
      rw [mkParsedTxn_shares]
      simp [sampleRawTxn, sharesVal, numOrUndef, jsNumber, jsStringToNumber, jsTrim,
        jsToLower, splitOnChar, parseMantissa, parseSign, parseUnsignedDec, allDigits,
        decValue, digitVal])
    (by
      rw [mkParsedTxn_price]
      simp [sampleRawTxn, priceVal, numOrUndef, jsNumber, jsStringToNumber, jsTrim,
        jsToLower, splitOnChar, parseMantissa, parseSign, parseUnsignedDec, allDigits,
        decValue, digitVal]
      norm_num)

/-! ## C10: empty textual value coerces to zero, not absence -/

/-- Claim C10: a present shares/price element whose textual value is the
empty string parses to the number `0`, not to an absent value, because JS
`Number("")` is the finite number `0`; absence arises exactly from a
missing value, a `null`, or a non-finite coercion. -/
theorem empty_string_parses_to_zero (t : RawTxn) :
    jsStringToNumber "" = some 0 ∧
    (sharesVal t = some (.vstr "") → (mkParsedTxn t).shares = some 0) ∧
    (priceVal t = some (.vstr "") → (mkParsedTxn t).price = some 0) ∧
    (∀ v : Option JVal, numOrUndef v = none ↔
      v = none ∨ v = some .vnull ∨ ∃ w, v = some w ∧ jsNumber w = none) := by
  have hzero : jsStringToNumber "" = some 0 := by simp [jsStringToNumber, jsTrim]
  refine ⟨hzero, ?_, ?_, ?_⟩
  · intro h; rw [mkParsedTxn_shares, h]
    simpa [numOrUndef, jsNumber] using hzero
  · intro h; rw [mkParsedTxn_price, h]
    simpa [numOrUndef, jsNumber] using hzero
  · intro v
    rcases v with _ | w
    · simp [numOrUndef]
    · rcases w with _ | s | q
      · simp [numOrUndef]
      · simp [numOrUndef, jsNumber]
      · rcases q with _ | q <;> simp [numOrUndef, jsNumber]

/-- Witness for C10 at a concrete transaction whose shares element holds
the empty string. -/
theorem empty_string_parses_to_zero_witness :
    (mkParsedTxn emptySharesTxn).shares = some 0 :=
  (empty_string_parses_to_zero emptySharesTxn).2.1 rfl

end Sec4
